import Mathlib

/-!
Verification of the ML-pipeline notebook (`ml_pipeline.ipynb`) against its
natural-language specification.

The notebook embeds four Python scripts, each shallowly embedded below:
* `preprocessing.py` — cleans the penguin dataframe, applies a column
  transformer and a train/test split, writes four CSV files;
* `train_and_deploy.py` — serving functions (`input_fn` with its CSV wire
  format) and the training main that serializes one model artifact;
* `evaluate.py` — computes predictions once, builds the classification-report
  dictionary, sets its accuracy key and writes one JSON file;
* `serving_lambda.py` — the `lambda_handler` shim between API Gateway and the
  model endpoint.

Strings are embedded as `List Char` (`Str`), with the Python string
operations used by the scripts (`split` on a one-character separator,
`join`, `strip`, `s[:-1]`, `os.path.join`) modelled character-exactly.
External library calls that the scripts merely invoke (sklearn estimators
and transformers, the numpy float parser/printer, the endpoint invocation,
pandas CSV input) are abstracted as explicit function parameters; every
piece of control flow and data plumbing written in the scripts themselves
is translated directly.
-/

namespace MLPipeline

/-- Strings of the embedded Python code, as explicit character lists. -/
abbrev Str := List Char

/-- Python `s.split(sep)` for a one-character separator `sep`:
`"".split(sep) = [""]`, and separators at the ends produce empty fields. -/
def pySplit (sep : Char) : Str → List Str
  | [] => [[]]
  | c :: cs =>
    if c = sep then [] :: pySplit sep cs
    else
      match pySplit sep cs with
      | [] => [[c]]
      | p :: ps => (c :: p) :: ps

/-- Python `sep.join(parts)` for a one-character separator. -/
def pyJoin (sep : Char) : List Str → Str
  | [] => []
  | [p] => p
  | p :: q :: ps => p ++ sep :: pyJoin sep (q :: ps)

/-- Python `s.strip(chars)`: remove from both ends every character that
occurs in `chars`. -/
def pyStrip (chars s : Str) : Str :=
  ((s.dropWhile (fun c => decide (c ∈ chars))).reverse.dropWhile
      (fun c => decide (c ∈ chars))).reverse

/-- Python `os.path.join(a, b)` (posix, two components). -/
def pyPathJoin (a b : Str) : Str :=
  if b.head? = some '/' then b
  else if a = [] ∨ a.getLast? = some '/' then a ++ b
  else a ++ '/' :: b

/-- `u` occurs contiguously inside `v` (so `v` is `u` plus material dropped
only at the two ends). -/
def withinOf (u v : Str) : Prop :=
  ∃ s t, s ++ u ++ t = v

/-- Left-to-right traversal of a list under an `Option`-returning function,
failing as soon as one element fails.  This is how a Python `for` loop whose
body may raise (`float(x)`) behaves: the first failure aborts the whole
function. -/
def traverseOpt (f : β → Option α) : List β → Option (List α)
  | [] => some []
  | x :: xs =>
    match f x, traverseOpt f xs with
    | some a, some l => some (a :: l)
    | _, _ => none

/-! ### Serving input function (`train_and_deploy.py`, `input_fn`)

```python
def input_fn(request_body, content_type):
    if content_type == 'text/csv':
        samples = []
        for r in request_body.split('|'):
            samples.append(list(map(float,r.split(','))))
        return np.array(samples)
    else:
        raise ValueError("Thie model only supports text/csv input")
```

The Python float parser is abstracted as `parseF : Str → Option α`
(`none` models `float(...)` raising `ValueError`); raising is modelled by
`Except.error`. -/

/-- The custom error message raised for an unsupported content type
(sic, as in the source). -/
def csvOnlyMsg : Str := "Thie model only supports text/csv input".data

/-- The library error raised when a field is not a float literal. -/
def floatErrMsg : Str := "could not convert string to float".data

/-- Shallow embedding of `input_fn`. -/
def input_fn (parseF : Str → Option α) (request_body content_type : Str) :
    Except Str (List (List α)) :=
  if content_type = "text/csv".data then
    match traverseOpt (fun r => traverseOpt parseF (pySplit ',' r))
        (pySplit '|' request_body) with
    | some samples => Except.ok samples
    | none => Except.error floatErrMsg
  else
    Except.error csvOnlyMsg

/-- All `','`/`'|'`-delimited fields of a request body, in order. -/
def fieldsOf (request_body : Str) : List Str :=
  (pySplit '|' request_body).flatMap (pySplit ',')

/-- `true` iff every field of the body parses under `parseF`. -/
def parsesAll (parseF : Str → Option α) (request_body : Str) : Bool :=
  (fieldsOf request_body).all (fun f => (parseF f).isSome)

/-- Whether an `Except` result is a normal return (no exception). -/
def isOkE : Except ε β → Bool
  | Except.ok _ => true
  | Except.error _ => false

/-! ### Lambda shim (`serving_lambda.py`, `lambda_handler`)

```python
def lambda_handler(event, context):
    data = json.loads(json.dumps(event))
    payload = json.loads(data['data'])
    body = ""
    for sample in payload:
        body += ",".join([str(n) for n in sample]) + "|"
    body = body[:-1]
    response = runtime.invoke_endpoint(EndpointName=endpoint_name,
                                       ContentType='text/csv',
                                       Body=body)
    label = response['Body'].read().decode('utf-8').strip("[]").strip("'")
    return label
```

The JSON decoding of the event's `data` field is abstracted: `payload` is
the already-decoded list of samples, and the numeric printer `str(n)` is
the parameter `toStr`.  The endpoint is the parameter
`invoke : EndpointRequest → Str`, returning the decoded response body. -/

/-- The keyword arguments of `runtime.invoke_endpoint`. -/
structure EndpointRequest where
  EndpointName : Str
  ContentType : Str
  Body : Str
deriving DecidableEq

/-- The request body built by the shim's loop:
`","`-joined values per sample, samples separated by `"|"`, then `body[:-1]`. -/
def buildBody (toStr : α → Str) (payload : List (List α)) : Str :=
  (payload.foldl
      (fun body sample => body ++ pyJoin ',' (sample.map toStr) ++ ['|'])
      []).dropLast

/-- The exact request the shim sends to the model endpoint. -/
def lambdaRequest (endpoint_name : Str) (toStr : α → Str)
    (payload : List (List α)) : EndpointRequest :=
  { EndpointName := endpoint_name
    ContentType := "text/csv".data
    Body := buildBody toStr payload }

/-- The apostrophe character (`chr 39`), the argument of the second
`.strip(...)` call. -/
def squote : Str := [Char.ofNat 39]

/-- The characters of the first `.strip(...)` call. -/
def brackets : Str := ['[', ']']

/-- Shallow embedding of `lambda_handler`. -/
def lambda_handler (endpoint_name : Str) (toStr : α → Str)
    (invoke : EndpointRequest → Str) (payload : List (List α)) : Str :=
  pyStrip squote
    (pyStrip brackets (invoke (lambdaRequest endpoint_name toStr payload)))

/-! ### Concrete number format used by witnesses and counterexamples

Stand-ins for Python's `str`/`float` pair on concrete values: decimal
natural numbers rendered by `Nat.repr` and re-parsed digit by digit. -/

/-- Digit-by-digit parser for the decimal rendering of a natural number. -/
def parseNatCharsAux : Str → Nat → Option Nat
  | [], acc => some acc
  | c :: cs, acc =>
    if c.isDigit then parseNatCharsAux cs (acc * 10 + (c.toNat - 48))
    else none

/-- Parse a non-empty all-digit string; fail on `""` or any non-digit,
like Python `float`. -/
def parseNatChars (s : Str) : Option Nat :=
  if s = [] then none else parseNatCharsAux s 0

/-- Decimal rendering of a natural number, as a character list. -/
def natToChars (n : Nat) : Str :=
  (Nat.repr n).data

/-- A constant model endpoint whose decoded response body is `"[Male]"`,
the shape `output_fn` (`str(prediction)`) produces for a one-row prediction. -/
def constEndpoint : EndpointRequest → Str :=
  fun _ => "[Male]".data

/-! ### Preprocessing script (`preprocessing.py`)

```python
features = ["bill_length_mm", "bill_depth_mm", "flipper_length_mm",
            "species", "island"]
target = "sex"
columns = features + [target]
...
parser.add_argument("--train-test-split", type=float, default=0.3)
...
df = pd.DataFrame(data=df, columns=columns)
df.dropna(inplace=True)
df.drop_duplicates(inplace=True)
preprocess_pipeline = make_column_transformer(
    (["bill_length_mm", "bill_depth_mm", "flipper_length_mm"], StandardScaler()),
    (["species", "island"], OneHotEncoder(sparse=False)),
)
X = preprocess_pipeline.fit_transform(df.drop(columns=target))
X_train, X_test, y_train, y_test = train_test_split(
    pd.DataFrame(X), df[target], test_size=split, random_state=42)
X_train.to_csv(..., header=False, index=False)   # and the three others
```

A dataframe row holds the six selected columns; `NaN` cells are `none`.
The two fitted transformers are abstract table-to-table parameters
(`standardScaler`, `oneHotEncoder`); the seeded shuffle of
`train_test_split(random_state=42)` is an abstract family of permutations
`perm` of `List.range n`; sklearn's split size for a float `test_size` is
`ceil(test_size * n_samples)` with the rest as the train set. -/

/-- One row of the dataframe restricted to `columns`; `none` is `NaN`. -/
structure PenguinRow (α : Type) where
  bill_length_mm : Option α
  bill_depth_mm : Option α
  flipper_length_mm : Option α
  species : Option Str
  island : Option Str
  sex : Option Str
deriving DecidableEq

/-- A row survives `df.dropna()` iff none of its six cells is missing. -/
def isComplete (r : PenguinRow α) : Bool :=
  r.bill_length_mm.isSome && r.bill_depth_mm.isSome &&
    r.flipper_length_mm.isSome && r.species.isSome && r.island.isSome &&
    r.sex.isSome

/-- `df.drop_duplicates()` keeping the first occurrence, with the already
emitted rows accumulated in `seen`. -/
def dropDupAux [DecidableEq β] : List β → List β → List β
  | [], _ => []
  | x :: xs, seen =>
    if x ∈ seen then dropDupAux xs seen
    else x :: dropDupAux xs (x :: seen)

/-- `df.drop_duplicates()` keeping first occurrences. -/
def dropDuplicates [DecidableEq β] (l : List β) : List β :=
  dropDupAux l []

/-- The dataframe after `dropna` and `drop_duplicates`. -/
def cleanedDf [DecidableEq α] (df : List (PenguinRow α)) :
    List (PenguinRow α) :=
  dropDuplicates (df.filter isComplete)

/-- The columns handed to `StandardScaler`, in order. -/
def numericCols (r : PenguinRow α) : List (Option α) :=
  [r.bill_length_mm, r.bill_depth_mm, r.flipper_length_mm]

/-- The columns handed to `OneHotEncoder`, in order. -/
def catCols (r : PenguinRow α) : List (Option Str) :=
  [r.species, r.island]

/-- `make_column_transformer(...).fit_transform`: the scaled numeric block
of each row followed by its one-hot block (`numpy.hstack` of the two
transformer outputs). -/
def fit_transform (standardScaler : List (List (Option α)) → List (List β))
    (oneHotEncoder : List (List (Option Str)) → List (List β))
    (rows : List (PenguinRow α)) : List (List β) :=
  List.zipWith (· ++ ·) (standardScaler (rows.map numericCols))
    (oneHotEncoder (rows.map catCols))

/-- The four values returned by `train_test_split`. -/
structure SplitData (γ δ : Type) where
  X_train : List γ
  X_test : List γ
  y_train : List δ
  y_test : List δ
deriving DecidableEq

/-- sklearn `train_test_split(X, y, test_size, random_state=42)`:
`n_test = ceil(test_size * n_samples)`, the seeded permutation's first
`n_test` indices form the test set and the remaining indices the train
set. -/
def train_test_split (test_size : ℚ) (perm : Nat → List Nat)
    (X : List γ) (y : List δ) : SplitData γ δ :=
  let n := X.length
  let nTest := (⌈test_size * (n : ℚ)⌉).toNat
  let idx := perm n
  { X_train := (idx.drop nTest).filterMap (fun i => X[i]?)
    X_test := (idx.take nTest).filterMap (fun i => X[i]?)
    y_train := (idx.drop nTest).filterMap (fun i => y[i]?)
    y_test := (idx.take nTest).filterMap (fun i => y[i]?) }

/-- `argparse` with `--train-test-split`, `type=float, default=0.3`:
the command line is abstracted to the optionally supplied value. -/
def parseSplitArg (arg : Option ℚ) : ℚ :=
  arg.getD (3 / 10)

/-- `to_csv(..., header=False, index=False)`: no header line, no index
column, each row's cells comma-joined and newline-terminated. -/
def renderCsv (cellStr : γ → Str) (rows : List (List γ)) : Str :=
  (rows.map (fun row => pyJoin ',' (row.map cellStr) ++ ['\n'])).flatten

/-- CSV cell text of a label cell (`none` cells never survive `dropna`). -/
def optStr (o : Option Str) : Str :=
  o.getD []

/-- Shallow embedding of the `__main__` block of `preprocessing.py`: the
list of `(path, contents)` files it writes, in write order. -/
def preprocessingRun [DecidableEq α] (splitArg : Option ℚ)
    (standardScaler : List (List (Option α)) → List (List β))
    (oneHotEncoder : List (List (Option Str)) → List (List β))
    (perm : Nat → List Nat) (toStrB : β → Str)
    (df : List (PenguinRow α)) : List (Str × Str) :=
  let split := parseSplitArg splitArg
  let cleaned := cleanedDf df
  let X := fit_transform standardScaler oneHotEncoder cleaned
  let y := cleaned.map PenguinRow.sex
  let s := train_test_split split perm X y
  [ (pyPathJoin ("/opt/ml/processing/train".data) ("train_features.csv".data),
      renderCsv toStrB s.X_train),
    (pyPathJoin ("/opt/ml/processing/test".data) ("test_features.csv".data),
      renderCsv toStrB s.X_test),
    (pyPathJoin ("/opt/ml/processing/train".data) ("train_labels.csv".data),
      renderCsv optStr (s.y_train.map (fun v => [v]))),
    (pyPathJoin ("/opt/ml/processing/test".data) ("test_labels.csv".data),
      renderCsv optStr (s.y_test.map (fun v => [v]))) ]

/-! ### Training main (`train_and_deploy.py`, `__main__`)

```python
X_train = pd.read_csv(train_features_data, header=None)
y_train = pd.read_csv(train_labels_data, header=None)
model = LogisticRegression(class_weight="balanced", solver="lbfgs")
model.fit(X_train, y_train)
model_output_directory = os.path.join("/opt/ml/model", "model.joblib")
joblib.dump(model, model_output_directory)
```

`LogisticRegression(...).fit` is the abstract parameter `fit` applied to
the estimator's configuration; the dumped artifact is the fitted model
itself, and the script performs exactly one write. -/

/-- The two constructor arguments of `LogisticRegression` used by the
script. -/
structure LogisticRegressionConfig where
  class_weight : Str
  solver : Str
deriving DecidableEq

/-- Shallow embedding of the training main: the `(path, artifact)` writes
it performs, in order. -/
def train_main (fit : LogisticRegressionConfig → List γ → List δ → M)
    (X_train : List γ) (y_train : List δ) : List (Str × M) :=
  let model := fit { class_weight := "balanced".data, solver := "lbfgs".data }
    X_train y_train
  [ (pyPathJoin ("/opt/ml/model".data) ("model.joblib".data), model) ]

/-! ### Evaluation script (`evaluate.py`)

```python
predictions = model.predict(X_test)
report = classification_report(y_test, predictions, output_dict=True)
report["accuracy"] = accuracy_score(y_test, predictions)
with open(eval_output_path, "w") as f:
    f.write(json.dumps(report))
```

The model's `predict` and sklearn's `classification_report` are abstract
parameters; the report dictionary is an association list preserving
insertion order, as a Python dict does.  `accuracy_score` is the fraction
of positions where prediction and label agree. -/

/-- sklearn `accuracy_score`: matching positions over total labels. -/
def accuracy_score [DecidableEq δ] (y_true y_pred : List δ) : ℚ :=
  ((List.zipWith (fun a b => decide (a = b)) y_true y_pred).count true : ℚ) /
    (y_true.length : ℚ)

/-- Python `d[k] = v` on a dict modelled as an ordered association list
(keys unique, as in a Python dict): replace in place at the key's position
if present, append at the end otherwise. -/
def dictSet : List (Str × V) → Str → V → List (Str × V)
  | [], k, v => [(k, v)]
  | p :: d, k, v => if p.1 = k then (k, v) :: d else p :: dictSet d k v

/-- Python `d[k]` lookup (first, hence unique, matching key). -/
def dictGet (d : List (Str × V)) (k : Str) : Option V :=
  (d.find? (fun p => decide (p.1 = k))).map Prod.snd

/-- The dict with every entry for key `k` removed (used to compare the
rest of a dict around one key). -/
def dictRemove (d : List (Str × V)) (k : Str) : List (Str × V) :=
  d.filter (fun p => ! decide (p.1 = k))

/-- The dictionary written by `evaluate.py`: the classification report of
the test labels against the predictions, its `"accuracy"` entry set to the
accuracy score of the same predictions. -/
def evalReport [DecidableEq δ] (predict : List ξ → List δ)
    (classification_report : List δ → List δ → List (Str × V))
    (wrap : ℚ → V) (X_test : List ξ) (y_test : List δ) : List (Str × V) :=
  let predictions := predict X_test
  dictSet (classification_report y_test predictions) ("accuracy".data)
    (wrap (accuracy_score y_test predictions))

/-- Shallow embedding of the `__main__` block of `evaluate.py`: the
`(path, dictionary)` files it writes, in order. -/
def evaluateRun [DecidableEq δ] (predict : List ξ → List δ)
    (classification_report : List δ → List δ → List (Str × V))
    (wrap : ℚ → V) (X_test : List ξ) (y_test : List δ) :
    List (Str × List (Str × V)) :=
  [ (pyPathJoin ("/opt/ml/processing/evaluation".data) ("evaluation.json".data),
      evalReport predict classification_report wrap X_test y_test) ]

/-! ### Contract propositions for the preprocessing script -/

/-- The contract of `preprocessing.py` asserted by the specification: the
script writes exactly the four header-less, index-less CSV files (train
features, test features, train labels, test labels) at their literal
container paths; the test part has `ceil(split * n)` rows of the `n`
cleaned rows and the train part the remaining `n - ceil(split * n)`; each
transformed row is the standard-scaler block of the three numeric columns
followed by the one-hot block of `species` and `island`; and the
`--train-test-split` argument defaults to `0.3`. -/
def PreprocessingContract [DecidableEq α] (splitArg : Option ℚ)
    (standardScaler : List (List (Option α)) → List (List β))
    (oneHotEncoder : List (List (Option Str)) → List (List β))
    (perm : Nat → List Nat) (toStrB : β → Str)
    (df : List (PenguinRow α)) : Prop :=
  let split := parseSplitArg splitArg
  let cleaned := cleanedDf df
  let n := cleaned.length
  let nTest := (⌈split * (n : ℚ)⌉).toNat
  let s := train_test_split split perm
    (fit_transform standardScaler oneHotEncoder cleaned)
    (cleaned.map PenguinRow.sex)
  preprocessingRun splitArg standardScaler oneHotEncoder perm toStrB df =
      [ ("/opt/ml/processing/train/train_features.csv".data,
          renderCsv toStrB s.X_train),
        ("/opt/ml/processing/test/test_features.csv".data,
          renderCsv toStrB s.X_test),
        ("/opt/ml/processing/train/train_labels.csv".data,
          renderCsv optStr (s.y_train.map (fun v => [v]))),
        ("/opt/ml/processing/test/test_labels.csv".data,
          renderCsv optStr (s.y_test.map (fun v => [v]))) ]
    ∧ s.X_test.length = nTest
    ∧ s.X_train.length = n - nTest
    ∧ s.y_test.length = nTest
    ∧ s.y_train.length = n - nTest
    ∧ (∀ i, i < n →
        (fit_transform standardScaler oneHotEncoder cleaned).getD i []
          = (standardScaler (cleaned.map numericCols)).getD i []
              ++ (oneHotEncoder (cleaned.map catCols)).getD i [])
    ∧ parseSplitArg none = 3 / 10

/-- The cleaning/partition invariant of `preprocessing.py`: membership in
the cleaned frame is membership in the input with no missing cell; the
cleaned frame has no duplicate rows; the train and test outputs (features
and labels alike) partition the transformed rows and the cleaned labels;
and the two row counts sum to the number of distinct complete rows. -/
def CleanSplitPartition [DecidableEq α] (splitArg : Option ℚ)
    (standardScaler : List (List (Option α)) → List (List β))
    (oneHotEncoder : List (List (Option Str)) → List (List β))
    (perm : Nat → List Nat) (df : List (PenguinRow α)) : Prop :=
  let cleaned := cleanedDf df
  let X := fit_transform standardScaler oneHotEncoder cleaned
  let y := cleaned.map PenguinRow.sex
  let s := train_test_split (parseSplitArg splitArg) perm X y
  (∀ r, r ∈ cleaned ↔ (r ∈ df ∧ isComplete r = true))
    ∧ cleaned.Nodup
    ∧ List.Perm (s.X_train ++ s.X_test) X
    ∧ List.Perm (s.y_train ++ s.y_test) y
    ∧ s.X_train.length + s.X_test.length = cleaned.length

/-! ### Concrete instances used by witnesses -/

/-- A concrete two-row dataframe over integer measurements. -/
def demoDf : List (PenguinRow Int) :=
  [ { bill_length_mm := some 39, bill_depth_mm := some 18,
      flipper_length_mm := some 181, species := some ("Adelie".data),
      island := some ("Torgersen".data), sex := some ("male".data) },
    { bill_length_mm := some 46, bill_depth_mm := some 21,
      flipper_length_mm := some 194, species := some ("Adelie".data),
      island := some ("Dream".data), sex := some ("female".data) } ]

/-- A length-preserving stand-in for the fitted `StandardScaler`. -/
def demoScaler : List (List (Option Int)) → List (List (Option Int)) :=
  fun l => l

/-- A length-preserving stand-in for the fitted `OneHotEncoder`. -/
def demoEncoder : List (List (Option Str)) → List (List (Option Int)) :=
  fun l => l.map (fun r => r.map (fun _ => some 1))

/-- The identity family of index permutations (a concrete instance of the
seeded shuffle). -/
def demoPerm : Nat → List Nat :=
  fun n => List.range n

/-- A cell printer for the demo feature type. -/
def demoCell : Option Int → Str :=
  fun o => (o.getD 0).repr.data

/-! ## Lemmas about the Python string primitives -/

theorem pySplit_ne_nil (sep : Char) (s : Str) : pySplit sep s ≠ [] := by
  induction s with
  | nil => simp [pySplit]
  | cons c cs ih =>
    simp only [pySplit]
    split
    · simp
    · cases h : pySplit sep cs with
      | nil => simp
      | cons p ps => simp

theorem pySplit_sepFree (sep : Char) (a : Str) (h : sep ∉ a) :
    pySplit sep a = [a] := by
  induction a with
  | nil => rfl
  | cons c cs ih =>
    have hc : ¬ c = sep := by
      rintro rfl
      exact h (List.mem_cons_self _ _)
    have hcs : sep ∉ cs := fun hm => h (List.mem_cons_of_mem _ hm)
    simp [pySplit, hc, ih hcs]

theorem pySplit_sep_append (sep : Char) (a t : Str) (h : sep ∉ a) :
    pySplit sep (a ++ sep :: t) = a :: pySplit sep t := by
  induction a with
  | nil => simp [pySplit]
  | cons c cs ih =>
    have hc : ¬ c = sep := by
      rintro rfl
      exact h (List.mem_cons_self _ _)
    have hcs : sep ∉ cs := fun hm => h (List.mem_cons_of_mem _ hm)
    simp [pySplit, hc, ih hcs]

theorem pySplit_pyJoin (sep : Char) (parts : List Str) (hne : parts ≠ [])
    (hfree : ∀ p ∈ parts, sep ∉ p) :
    pySplit sep (pyJoin sep parts) = parts := by
  induction parts with
  | nil => exact absurd rfl hne
  | cons p ps ih =>
    cases ps with
    | nil => simpa [pyJoin] using pySplit_sepFree sep p (hfree p (by simp))
    | cons q qs =>
      rw [show pyJoin sep (p :: q :: qs) = p ++ sep :: pyJoin sep (q :: qs)
          from rfl,
        pySplit_sep_append sep p _ (hfree p (by simp)),
        ih (by simp) (fun r hr => hfree r (List.mem_cons_of_mem _ hr))]

theorem mem_pyJoin {c : Char} (sep : Char) (parts : List Str)
    (h : c ∈ pyJoin sep parts) : c = sep ∨ ∃ p ∈ parts, c ∈ p := by
  induction parts with
  | nil => simp [pyJoin] at h
  | cons p ps ih =>
    cases ps with
    | nil =>
      refine Or.inr ⟨p, by simp, ?_⟩
      simpa [pyJoin] using h
    | cons q qs =>
      rw [show pyJoin sep (p :: q :: qs) = p ++ sep :: pyJoin sep (q :: qs)
          from rfl] at h
      rcases List.mem_append.1 h with h1 | h2
      · exact Or.inr ⟨p, by simp, h1⟩
      · rcases List.mem_cons.1 h2 with rfl | h3
        · exact Or.inl rfl
        · rcases ih h3 with h4 | ⟨r, hr, hcr⟩
          · exact Or.inl h4
          · exact Or.inr ⟨r, List.mem_cons_of_mem _ hr, hcr⟩

theorem foldl_append_sep (f : β → Str) (sep : Char) (l : List β) :
    ∀ acc : Str,
      l.foldl (fun b s => b ++ f s ++ [sep]) acc
        = acc ++ (l.map (fun s => f s ++ [sep])).flatten := by
  induction l with
  | nil => intro acc; simp
  | cons x xs ih =>
    intro acc
    rw [List.foldl_cons, ih, List.map_cons, List.flatten_cons]
    simp [List.append_assoc]

theorem flatten_concatSep_dropLast (sep : Char) (parts : List Str) :
    ((parts.map (fun p => p ++ [sep])).flatten).dropLast = pyJoin sep parts := by
  induction parts with
  | nil => simp [pyJoin]
  | cons p ps ih =>
    cases ps with
    | nil => simp [pyJoin]
    | cons q qs =>
      have hne : (((q :: qs).map (fun p => p ++ [sep])).flatten) ≠ [] := by
        simp
      rw [List.map_cons, List.flatten_cons,
        List.dropLast_append_of_ne_nil _ hne, ih]
      simp [pyJoin, List.append_assoc]

theorem buildBody_eq_pyJoin (toStr : α → Str) (payload : List (List α)) :
    buildBody toStr payload
      = pyJoin '|' (payload.map (fun s => pyJoin ',' (s.map toStr))) := by
  unfold buildBody
  rw [foldl_append_sep (fun s => pyJoin ',' (s.map toStr)) '|' payload []]
  rw [List.nil_append,
    show payload.map (fun s => pyJoin ',' (s.map toStr) ++ ['|'])
        = (payload.map (fun s => pyJoin ',' (s.map toStr))).map
            (fun p => p ++ ['|']) by
      rw [List.map_map]; rfl]
  exact flatten_concatSep_dropLast '|' _

theorem dropWhile_within (p : Char → Bool) (l : Str) :
    ∃ a, a ++ l.dropWhile p = l := by
  induction l with
  | nil => exact ⟨[], rfl⟩
  | cons c cs ih =>
    by_cases h : p c
    · obtain ⟨a, ha⟩ := ih
      exact ⟨c :: a, by simp [List.dropWhile_cons, h, ha]⟩
    · exact ⟨[], by simp [List.dropWhile_cons, h]⟩

theorem pyStrip_within (chars s : Str) : withinOf (pyStrip chars s) s := by
  obtain ⟨a, ha⟩ := dropWhile_within (fun c => decide (c ∈ chars)) s
  obtain ⟨b, hb⟩ := dropWhile_within (fun c => decide (c ∈ chars))
    ((s.dropWhile (fun c => decide (c ∈ chars))).reverse)
  refine ⟨a, b.reverse, ?_⟩
  have h1 : s.dropWhile (fun c => decide (c ∈ chars))
      = pyStrip chars s ++ b.reverse := by
    have h2 := congrArg List.reverse hb
    simpa [pyStrip, List.reverse_append] using h2.symm
  rw [List.append_assoc, ← h1, ha]

theorem withinOf_trans {u v w : Str} (h1 : withinOf u v)
    (h2 : withinOf v w) : withinOf u w := by
  obtain ⟨a, b, hv⟩ := h1
  obtain ⟨c, d, hw⟩ := h2
  refine ⟨c ++ a, b ++ d, ?_⟩
  rw [← hw, ← hv]
  simp [List.append_assoc]

/-! ## Lemmas about `traverseOpt` -/

theorem traverseOpt_map_roundtrip (f : β → Option α) (g : α → β)
    (l : List α) (h : ∀ x ∈ l, f (g x) = some x) :
    traverseOpt f (l.map g) = some l := by
  induction l with
  | nil => rfl
  | cons x xs ih =>
    simp only [List.map_cons, traverseOpt, h x (by simp),
      ih (fun y hy => h y (List.mem_cons_of_mem _ hy))]

theorem traverseOpt_isSome (f : β → Option α) (l : List β) :
    (traverseOpt f l).isSome = l.all (fun x => (f x).isSome) := by
  induction l with
  | nil => rfl
  | cons x xs ih =>
    simp only [traverseOpt, List.all_cons, ← ih]
    cases f x <;> cases traverseOpt f xs <;> simp

/-! ## Claim theorems: serving input function and lambda shim -/

/-- C1 counterexample: `input_fn` does branch on the content type and does
reject inputs with a custom error — the same body is accepted under
`text/csv` and rejected with the script's own `ValueError` message under
`application/json`. -/
theorem input_fn_branches_on_content_type :
    input_fn parseNatChars ("1".data) ("application/json".data)
        = Except.error csvOnlyMsg
      ∧ input_fn parseNatChars ("1".data) ("text/csv".data)
        = Except.ok [[1]] :=
  ⟨rfl, rfl⟩

/-- C1 (amended): the serving input function performs exactly one custom
validation branch — every content type other than `text/csv` is rejected
with the script's own `ValueError`; the preprocessing and training mains
remain branch-free library-call sequences. -/
theorem input_fn_rejects_non_csv (parseF : Str → Option α) (rb ct : Str)
    (h : ct ≠ "text/csv".data) :
    input_fn parseF rb ct = Except.error csvOnlyMsg := by
  simp [input_fn, h]

/-- C1 witness: the amended rejection at a concrete body and content
type. -/
theorem input_fn_rejects_non_csv_witness :
    input_fn parseNatChars ("1,2".data) ("application/json".data)
      = Except.error csvOnlyMsg :=
  input_fn_rejects_non_csv parseNatChars ("1,2".data)
    ("application/json".data) (by decide)

/-- C2 counterexample: `lambda_handler` does not return the endpoint's
decoded response body unchanged — for the response `"[Male]"` it returns
`"Male"`, the brackets having been stripped. -/
theorem lambda_handler_transforms_response :
    lambda_handler [] natToChars constEndpoint [[1]]
      ≠ constEndpoint (lambdaRequest [] natToChars [[1]]) := by
  decide

/-- C2 (amended): the value returned by `lambda_handler` is the model
endpoint's decoded response body transformed only by stripping leading and
trailing `[`/`]` characters and then leading and trailing `'` characters;
in particular the returned value occurs contiguously inside the response
body. -/
theorem lambda_handler_strip_only (endpoint_name : Str) (toStr : α → Str)
    (invoke : EndpointRequest → Str) (payload : List (List α)) :
    lambda_handler endpoint_name toStr invoke payload
        = pyStrip squote (pyStrip brackets
            (invoke (lambdaRequest endpoint_name toStr payload)))
      ∧ withinOf (lambda_handler endpoint_name toStr invoke payload)
          (invoke (lambdaRequest endpoint_name toStr payload)) :=
  ⟨rfl, withinOf_trans (pyStrip_within _ _) (pyStrip_within _ _)⟩

/-- C3: the shim's request to the model endpoint carries content type
`text/csv` and a body that joins each sample's rendered values with `,`
and the samples with `|`, with no trailing separator (the `|`-join of the
`,`-joins). -/
theorem lambda_request_wire_format (endpoint_name : Str) (toStr : α → Str)
    (payload : List (List α)) :
    lambdaRequest endpoint_name toStr payload
      = { EndpointName := endpoint_name
          ContentType := "text/csv".data
          Body := pyJoin '|' (payload.map (fun s => pyJoin ','
            (s.map toStr))) } := by
  simp [lambdaRequest, buildBody_eq_pyJoin]

/-- C4: parsing the shim's wire encoding of a non-empty list of non-empty
samples with `input_fn` under `text/csv` returns exactly the original
samples in order, provided each rendered value re-parses to itself and
contains no separator character (true of Python's float printer). -/
theorem wire_format_roundtrip (toStr : α → Str) (parseF : Str → Option α)
    (payload : List (List α)) (hne : payload ≠ [])
    (hs : ∀ s ∈ payload, s ≠ [])
    (hrt : ∀ s ∈ payload, ∀ x ∈ s, parseF (toStr x) = some x)
    (hsep : ∀ s ∈ payload, ∀ x ∈ s, ¬ ',' ∈ toStr x ∧ ¬ '|' ∈ toStr x) :
    input_fn parseF (buildBody toStr payload) ("text/csv".data)
      = Except.ok payload := by
  have hparts : ∀ p ∈ payload.map (fun s => pyJoin ',' (s.map toStr)),
      '|' ∉ p := by
    intro p hp hmem
    obtain ⟨s, hsmem, rfl⟩ := List.mem_map.1 hp
    rcases mem_pyJoin ',' _ hmem with h | ⟨t, ht, hct⟩
    · exact absurd h (by decide)
    · obtain ⟨x, hx, rfl⟩ := List.mem_map.1 ht
      exact (hsep s hsmem x hx).2 hct
  have hsplitb : pySplit '|' (buildBody toStr payload)
      = payload.map (fun s => pyJoin ',' (s.map toStr)) := by
    rw [buildBody_eq_pyJoin]
    refine pySplit_pyJoin '|' _ ?_ hparts
    intro hmap
    exact hne (by simpa using hmap)
  have hinner : ∀ s ∈ payload,
      traverseOpt parseF (pySplit ',' (pyJoin ',' (s.map toStr)))
        = some s := by
    intro s hsmem
    have hfree : ∀ t ∈ s.map toStr, ',' ∉ t := by
      intro t ht hmem
      obtain ⟨x, hx, rfl⟩ := List.mem_map.1 ht
      exact (hsep s hsmem x hx).1 hmem
    have hmapne : s.map toStr ≠ [] := by
      intro hmap
      exact hs s hsmem (by simpa using hmap)
    rw [pySplit_pyJoin ',' _ hmapne hfree]
    exact traverseOpt_map_roundtrip parseF toStr s (hrt s hsmem)
  unfold input_fn
  rw [if_pos rfl, hsplitb,
    traverseOpt_map_roundtrip (fun r => traverseOpt parseF (pySplit ',' r))
      (fun s => pyJoin ',' (s.map toStr)) payload hinner]

/-- C4 witness: the round trip at a concrete two-sample payload. -/
theorem wire_format_roundtrip_witness :
    input_fn parseNatChars (buildBody natToChars [[12, 3], [4]])
        ("text/csv".data)
      = Except.ok [[12, 3], [4]] :=
  wire_format_roundtrip natToChars parseNatChars [[12, 3], [4]]
    (by decide) (by decide) (by decide) (by decide)

/-- C9: under content type `text/csv`, `input_fn` returns normally exactly
when every `,`/`|`-delimited field of the body parses as a float, and the
empty body never parses (its single field is the empty string, which the
float parser rejects). -/
theorem input_fn_field_validation (parseF : Str → Option α) (rb : Str)
    (h0 : parseF [] = none) :
    isOkE (input_fn parseF rb ("text/csv".data)) = parsesAll parseF rb
      ∧ parsesAll parseF [] = false := by
  constructor
  · have hok : isOkE (input_fn parseF rb ("text/csv".data))
        = (traverseOpt (fun r => traverseOpt parseF (pySplit ',' r))
            (pySplit '|' rb)).isSome := by
      unfold input_fn
      rw [if_pos rfl]
      cases traverseOpt (fun r => traverseOpt parseF (pySplit ',' r))
        (pySplit '|' rb) <;> rfl
    rw [hok, traverseOpt_isSome, parsesAll, fieldsOf, List.all_flatMap]
    simp only [traverseOpt_isSome]
  · simp [parsesAll, fieldsOf, pySplit, h0]

/-- C9 witness: a body with one non-numeric field fails, matching the
field-by-field criterion, and the empty body never parses. -/
theorem input_fn_field_validation_witness :
    isOkE (input_fn parseNatChars ("12,x|4".data) ("text/csv".data))
        = parsesAll parseNatChars ("12,x|4".data)
      ∧ parsesAll parseNatChars [] = false :=
  input_fn_field_validation parseNatChars ("12,x|4".data) rfl

/-! ## Lemmas about cleaning and splitting -/

theorem mem_dropDupAux [DecidableEq β] (l : List β) :
    ∀ (seen : List β) (a : β),
      a ∈ dropDupAux l seen ↔ (a ∈ l ∧ a ∉ seen) := by
  induction l with
  | nil => intro seen a; simp [dropDupAux]
  | cons x xs ih =>
    intro seen a
    by_cases hx : x ∈ seen
    · rw [dropDupAux, if_pos hx, ih]
      constructor
      · rintro ⟨h1, h2⟩
        exact ⟨List.mem_cons_of_mem _ h1, h2⟩
      · rintro ⟨h1, h2⟩
        rcases List.mem_cons.1 h1 with rfl | h3
        · exact absurd hx h2
        · exact ⟨h3, h2⟩
    · rw [dropDupAux, if_neg hx]
      simp only [List.mem_cons, ih, not_or]
      constructor
      · rintro (rfl | ⟨h1, h2, h3⟩)
        · exact ⟨Or.inl rfl, hx⟩
        · exact ⟨Or.inr h1, h3⟩
      · rintro ⟨rfl | h1, h2⟩
        · exact Or.inl rfl
        · by_cases hax : a = x
          · exact Or.inl hax
          · exact Or.inr ⟨h1, hax, h2⟩

theorem nodup_dropDupAux [DecidableEq β] (l : List β) :
    ∀ seen : List β, (dropDupAux l seen).Nodup := by
  induction l with
  | nil => intro seen; simp [dropDupAux]
  | cons x xs ih =>
    intro seen
    by_cases hx : x ∈ seen
    · rw [dropDupAux, if_pos hx]
      exact ih seen
    · rw [dropDupAux, if_neg hx]
      refine List.nodup_cons.2 ⟨?_, ih _⟩
      rw [mem_dropDupAux]
      rintro ⟨-, h2⟩
      exact h2 (List.mem_cons_self _ _)

theorem filterMap_getElem_range (l : List γ) :
    (List.range l.length).filterMap (fun i => l[i]?) = l := by
  induction l with
  | nil => rfl
  | cons a t ih =>
    have h1 : (fun i => (a :: t)[i]?) ∘ Nat.succ = fun i => t[i]? := by
      funext i
      simp
    rw [List.length_cons, List.range_succ_eq_map, List.filterMap_cons]
    simp only [List.getElem?_cons_zero]
    rw [List.filterMap_map, h1, ih]

theorem perm_filterMap_getElem (l : List γ) (idx : List Nat)
    (h : List.Perm idx (List.range l.length)) :
    List.Perm (idx.filterMap (fun i => l[i]?)) l := by
  have h2 := List.Perm.filterMap (fun i => l[i]?) h
  rwa [filterMap_getElem_range] at h2

theorem length_filterMap_isSome (f : β → Option γ) (s : List β)
    (h : ∀ x ∈ s, (f x).isSome = true) :
    (s.filterMap f).length = s.length := by
  induction s with
  | nil => rfl
  | cons x xs ih =>
    obtain ⟨a, ha⟩ := Option.isSome_iff_exists.1 (h x (by simp))
    rw [List.filterMap_cons, ha]
    simp [ih (fun y hy => h y (List.mem_cons_of_mem _ hy))]

theorem getElem_isSome_of_perm_range (l : List γ) (idx : List Nat)
    (h : List.Perm idx (List.range l.length)) :
    ∀ i ∈ idx, (l[i]?).isSome = true := by
  intro i hi
  have h2 : i < l.length := List.mem_range.1 (h.mem_iff.1 hi)
  rw [List.getElem?_eq_getElem h2]
  rfl

theorem tts_X_test_length (q : ℚ) (perm : Nat → List Nat) (X : List γ)
    (y : List δ)
    (hperm : List.Perm (perm X.length) (List.range X.length)) :
    (train_test_split q perm X y).X_test.length
      = min ((⌈q * (X.length : ℚ)⌉).toNat) X.length := by
  have hvalid := getElem_isSome_of_perm_range X (perm X.length) hperm
  rw [train_test_split]
  rw [length_filterMap_isSome _ _
    (fun i hi => hvalid i (List.take_subset _ _ hi))]
  rw [List.length_take, hperm.length_eq, List.length_range]

theorem tts_X_train_length (q : ℚ) (perm : Nat → List Nat) (X : List γ)
    (y : List δ)
    (hperm : List.Perm (perm X.length) (List.range X.length)) :
    (train_test_split q perm X y).X_train.length
      = X.length - (⌈q * (X.length : ℚ)⌉).toNat := by
  have hvalid := getElem_isSome_of_perm_range X (perm X.length) hperm
  rw [train_test_split]
  rw [length_filterMap_isSome _ _
    (fun i hi => hvalid i (List.drop_subset _ _ hi))]
  rw [List.length_drop, hperm.length_eq, List.length_range]

theorem tts_y_test_length (q : ℚ) (perm : Nat → List Nat) (X : List γ)
    (y : List δ) (hy : y.length = X.length)
    (hperm : List.Perm (perm X.length) (List.range X.length)) :
    (train_test_split q perm X y).y_test.length
      = min ((⌈q * (X.length : ℚ)⌉).toNat) X.length := by
  have hperm' : List.Perm (perm X.length) (List.range y.length) := by
    rwa [hy]
  have hvalid := getElem_isSome_of_perm_range y (perm X.length) hperm'
  rw [train_test_split]
  rw [length_filterMap_isSome _ _
    (fun i hi => hvalid i (List.take_subset _ _ hi))]
  rw [List.length_take, hperm.length_eq, List.length_range]

theorem tts_y_train_length (q : ℚ) (perm : Nat → List Nat) (X : List γ)
    (y : List δ) (hy : y.length = X.length)
    (hperm : List.Perm (perm X.length) (List.range X.length)) :
    (train_test_split q perm X y).y_train.length
      = X.length - (⌈q * (X.length : ℚ)⌉).toNat := by
  have hperm' : List.Perm (perm X.length) (List.range y.length) := by
    rwa [hy]
  have hvalid := getElem_isSome_of_perm_range y (perm X.length) hperm'
  rw [train_test_split]
  rw [length_filterMap_isSome _ _
    (fun i hi => hvalid i (List.drop_subset _ _ hi))]
  rw [List.length_drop, hperm.length_eq, List.length_range]

theorem tts_X_perm (q : ℚ) (perm : Nat → List Nat) (X : List γ)
    (y : List δ)
    (hperm : List.Perm (perm X.length) (List.range X.length)) :
    List.Perm ((train_test_split q perm X y).X_train
      ++ (train_test_split q perm X y).X_test) X := by
  rw [train_test_split]
  rw [← List.filterMap_append]
  refine perm_filterMap_getElem X _ (List.Perm.trans ?_ hperm)
  refine List.Perm.trans List.perm_append_comm ?_
  rw [List.take_append_drop]

theorem tts_y_perm (q : ℚ) (perm : Nat → List Nat) (X : List γ)
    (y : List δ) (hy : y.length = X.length)
    (hperm : List.Perm (perm X.length) (List.range X.length)) :
    List.Perm ((train_test_split q perm X y).y_train
      ++ (train_test_split q perm X y).y_test) y := by
  have hperm' : List.Perm (perm X.length) (List.range y.length) := by
    rwa [hy]
  rw [train_test_split]
  rw [← List.filterMap_append]
  refine perm_filterMap_getElem y _ (List.Perm.trans ?_ hperm')
  refine List.Perm.trans List.perm_append_comm ?_
  rw [List.take_append_drop]

theorem nTest_le (q : ℚ) (n : Nat) (_h0 : 0 ≤ q) (h1 : q ≤ 1) :
    (⌈q * (n : ℚ)⌉).toNat ≤ n := by
  have h2 : q * (n : ℚ) ≤ (n : ℚ) := by
    calc q * (n : ℚ) ≤ 1 * (n : ℚ) :=
          mul_le_mul_of_nonneg_right h1 (Nat.cast_nonneg n)
      _ = (n : ℚ) := one_mul _
  have h3 : ⌈q * (n : ℚ)⌉ ≤ (n : ℤ) := by
    calc ⌈q * (n : ℚ)⌉ ≤ ⌈(n : ℚ)⌉ := Int.ceil_le_ceil h2
      _ = (n : ℤ) := Int.ceil_natCast n
  exact Int.toNat_le.2 h3

theorem fit_transform_getD
    (standardScaler : List (List (Option α)) → List (List β))
    (oneHotEncoder : List (List (Option Str)) → List (List β))
    (rows : List (PenguinRow α))
    (hA : (standardScaler (rows.map numericCols)).length = rows.length)
    (hB : (oneHotEncoder (rows.map catCols)).length = rows.length)
    (i : Nat) (hi : i < rows.length) :
    (fit_transform standardScaler oneHotEncoder rows).getD i []
      = (standardScaler (rows.map numericCols)).getD i []
          ++ (oneHotEncoder (rows.map catCols)).getD i [] := by
  have hA' : i < (standardScaler (rows.map numericCols)).length := by
    rw [hA]; exact hi
  have hB' : i < (oneHotEncoder (rows.map catCols)).length := by
    rw [hB]; exact hi
  rw [List.getD_eq_getElem?_getD, List.getD_eq_getElem?_getD,
    List.getD_eq_getElem?_getD, fit_transform, List.getElem?_zipWith,
    List.getElem?_eq_getElem hA', List.getElem?_eq_getElem hB']
  rfl

/-! ## Claim theorems: preprocessing script -/

/-- C5: for every input dataframe, `preprocessing.py` writes exactly the
four header-less, index-less CSV files (train features, test features,
train labels, test labels) at their container paths, splitting the
transformed features and the `sex` labels with test size
`ceil(split * n)` over the `n` cleaned rows; each transformed row is the
standard-scaled numeric block followed by the one-hot block; the
`--train-test-split` argument defaults to `0.3`. -/
theorem preprocessing_contract [DecidableEq α] (splitArg : Option ℚ)
    (standardScaler : List (List (Option α)) → List (List β))
    (oneHotEncoder : List (List (Option Str)) → List (List β))
    (perm : Nat → List Nat) (toStrB : β → Str) (df : List (PenguinRow α))
    (hscale : ∀ l, (standardScaler l).length = l.length)
    (hencode : ∀ l, (oneHotEncoder l).length = l.length)
    (hperm : ∀ n, List.Perm (perm n) (List.range n))
    (h0 : 0 ≤ parseSplitArg splitArg) (h1 : parseSplitArg splitArg ≤ 1) :
    PreprocessingContract splitArg standardScaler oneHotEncoder perm toStrB
      df := by
  have hXlen : (fit_transform standardScaler oneHotEncoder
      (cleanedDf df)).length = (cleanedDf df).length := by
    simp [fit_transform, List.length_zipWith, hscale, hencode]
  have hylen : ((cleanedDf df).map PenguinRow.sex).length
      = (fit_transform standardScaler oneHotEncoder (cleanedDf df)).length := by
    rw [hXlen, List.length_map]
  have hle := nTest_le (parseSplitArg splitArg) (cleanedDf df).length h0 h1
  refine ⟨?_, ?_, ?_, ?_, ?_, ?_, rfl⟩
  · rfl
  · rw [tts_X_test_length _ _ _ _ (hperm _), hXlen]
    exact min_eq_left hle
  · rw [tts_X_train_length _ _ _ _ (hperm _), hXlen]
  · rw [tts_y_test_length _ _ _ _ hylen (hperm _), hXlen]
    exact min_eq_left hle
  · rw [tts_y_train_length _ _ _ _ hylen (hperm _), hXlen]
  · intro i hi
    exact fit_transform_getD standardScaler oneHotEncoder (cleanedDf df)
      (by rw [hscale, List.length_map]) (by rw [hencode, List.length_map])
      i hi

/-- C5 witness: the contract at a concrete two-row dataframe, identity-style
transformers, the identity permutation family and the default split. -/
theorem preprocessing_contract_witness :
    PreprocessingContract (some 1) demoScaler demoEncoder demoPerm demoCell
      demoDf :=
  preprocessing_contract (some 1) demoScaler demoEncoder demoPerm demoCell
    demoDf (fun l => rfl) (fun l => by simp [demoEncoder])
    (fun n => List.Perm.refl _) (by decide) (by decide)

/-- C8: cleaning precedes the split — a row is in the cleaned frame iff it
occurs in the input with no missing cell, the cleaned frame is
duplicate-free, the train/test outputs partition the transformed rows and
the labels, and the two row counts sum to the number of distinct complete
rows. -/
theorem clean_split_partition [DecidableEq α] (splitArg : Option ℚ)
    (standardScaler : List (List (Option α)) → List (List β))
    (oneHotEncoder : List (List (Option Str)) → List (List β))
    (perm : Nat → List Nat) (df : List (PenguinRow α))
    (hscale : ∀ l, (standardScaler l).length = l.length)
    (hencode : ∀ l, (oneHotEncoder l).length = l.length)
    (hperm : ∀ n, List.Perm (perm n) (List.range n)) :
    CleanSplitPartition splitArg standardScaler oneHotEncoder perm df := by
  have hXlen : (fit_transform standardScaler oneHotEncoder
      (cleanedDf df)).length = (cleanedDf df).length := by
    simp [fit_transform, List.length_zipWith, hscale, hencode]
  have hylen : ((cleanedDf df).map PenguinRow.sex).length
      = (fit_transform standardScaler oneHotEncoder (cleanedDf df)).length := by
    rw [hXlen, List.length_map]
  refine ⟨?_, ?_, ?_, ?_, ?_⟩
  · intro r
    rw [cleanedDf, dropDuplicates, mem_dropDupAux]
    simp [List.mem_filter]
  · exact nodup_dropDupAux _ _
  · exact tts_X_perm _ _ _ _ (hperm _)
  · exact tts_y_perm _ _ _ _ hylen (hperm _)
  · rw [tts_X_train_length _ _ _ _ (hperm _),
      tts_X_test_length _ _ _ _ (hperm _), hXlen]
    omega

/-- C8 witness: the cleaning/partition invariant at a concrete dataframe
and concrete transformers. -/
theorem clean_split_partition_witness :
    CleanSplitPartition none demoScaler demoEncoder demoPerm demoDf :=
  clean_split_partition none demoScaler demoEncoder demoPerm demoDf
    (fun l => rfl) (fun l => by simp [demoEncoder])
    (fun n => List.Perm.refl _)

/-! ## Lemmas about the report dictionary -/

theorem dictGet_dictSet_self (d : List (Str × V)) (k : Str) (v : V) :
    dictGet (dictSet d k v) k = some v := by
  induction d with
  | nil => simp [dictSet, dictGet, List.find?]
  | cons p d' ih =>
    by_cases hp : p.1 = k
    · simp [dictSet, hp, dictGet, List.find?]
    · simp only [dictSet, if_neg hp]
      rw [dictGet, List.find?_cons_of_neg _ (by simp [hp])]
      exact ih

theorem dictRemove_dictSet (d : List (Str × V)) (k : Str) (v : V) :
    dictRemove (dictSet d k v) k = dictRemove d k := by
  induction d with
  | nil => simp [dictSet, dictRemove]
  | cons p d' ih =>
    by_cases hp : p.1 = k
    · simp [dictSet, hp, dictRemove, List.filter_cons]
    · have ih' : List.filter (fun q => ! decide (q.1 = k)) (dictSet d' k v)
          = List.filter (fun q => ! decide (q.1 = k)) d' := ih
      simp [dictSet, hp, dictRemove, List.filter_cons, ih']

/-! ## Claim theorems: evaluation and training scripts -/

/-- C6: `evaluate.py` writes exactly one JSON file, named
`evaluation.json` in the evaluation output directory, whose content is
the classification-report dictionary of the model's predictions against
the test labels with its `accuracy` entry set to the accuracy score of
the same predictions and every other entry untouched. -/
theorem evaluate_metrics_file [DecidableEq δ] (predict : List ξ → List δ)
    (classification_report : List δ → List δ → List (Str × V))
    (wrap : ℚ → V) (X_test : List ξ) (y_test : List δ) :
    evaluateRun predict classification_report wrap X_test y_test
        = [ ("/opt/ml/processing/evaluation/evaluation.json".data,
            evalReport predict classification_report wrap X_test y_test) ]
      ∧ dictGet (evalReport predict classification_report wrap X_test
            y_test) ("accuracy".data)
          = some (wrap (accuracy_score y_test (predict X_test)))
      ∧ dictRemove (evalReport predict classification_report wrap X_test
            y_test) ("accuracy".data)
          = dictRemove (classification_report y_test (predict X_test))
              ("accuracy".data) :=
  ⟨rfl, dictGet_dictSet_self _ _ _, dictRemove_dictSet _ _ _⟩

/-- C7: the training main serializes exactly one artifact — the logistic
regression fitted with `class_weight='balanced'` and `solver='lbfgs'` on
the training features and labels it read — at
`/opt/ml/model/model.joblib`, and writes nothing else. -/
theorem train_single_artifact
    (fit : LogisticRegressionConfig → List γ → List δ → M)
    (X_train : List γ) (y_train : List δ) :
    train_main fit X_train y_train
      = [ ("/opt/ml/model/model.joblib".data,
          fit { class_weight := "balanced".data, solver := "lbfgs".data }
            X_train y_train) ] :=
  rfl

end MLPipeline
